import Mathlib

/-!
Verification model of the `soe-llms` crate: a unification layer over several
LLM streaming HTTP APIs.  The definitions below are shallow embeddings of the
Rust sources under `src/soe-llms/src/`; each definition's doc comment names the
Rust item it models.  Streaming decoders are modelled as functions from the
list of values their SSE transport yields to the list of values the decoder
emits, mirroring the control flow of their `LlmResponseStream::next`
implementations.  Rust panics (`expect`, `unreachable!`, `assert!`) are
modelled explicitly as an abort outcome, never as a normal value.
-/

/-- Model of `serde_json::Value`.  Numbers are restricted to integers, which is
sufficient for every payload used in this development. -/
inductive Json where
  | null
  | bool (b : Bool)
  | num (n : Int)
  | str (s : String)
  | arr (xs : List Json)
  | obj (fields : List (String × Json))

/-- The character code of an opening curly brace. -/
def lbrace : Char := Char.ofNat 123

/-- The character code of a closing curly brace. -/
def rbrace : Char := Char.ofNat 125

/-- Skip JSON whitespace. -/
def skipWs : List Char → List Char
  | [] => []
  | c :: cs =>
    if c = ' ' || c = '\n' || c = '\t' || c = '\r' then skipWs cs else c :: cs

/-- Decode one JSON string escape character. -/
def escChar (c : Char) : Option Char :=
  if c = '"' then some '"'
  else if c = '\\' then some '\\'
  else if c = '/' then some '/'
  else if c = 'n' then some '\n'
  else if c = 't' then some '\t'
  else if c = 'r' then some '\r'
  else if c = 'b' then some (Char.ofNat 8)
  else if c = 'f' then some (Char.ofNat 12)
  else none

/-- Parse the body of a JSON string (the opening quote already consumed),
returning the decoded string and the rest of the input. -/
def parseStringChars : List Char → Option (String × List Char)
  | [] => none
  | c :: cs =>
    if c = '"' then some ("", cs)
    else if c = '\\' then
      match cs with
      | [] => none
      | e :: cs2 =>
        match escChar e with
        | some ec =>
          match parseStringChars cs2 with
          | some (s, r) => some (String.singleton ec ++ s, r)
          | none => none
        | none => none
    else
      match parseStringChars cs with
      | some (s, r) => some (String.singleton c ++ s, r)
      | none => none

/-- Parse a run of decimal digits, returning the accumulated value, the count
of digits seen and the rest of the input. -/
def parseDigits (acc : Nat) (count : Nat) : List Char → Nat × Nat × List Char
  | [] => (acc, count, [])
  | c :: cs =>
    if c.isDigit then parseDigits (acc * 10 + (c.toNat - 48)) (count + 1) cs
    else (acc, count, c :: cs)

mutual

/-- Fuel-driven recursive-descent parser for a single JSON value.  Models the
grammar accepted by `serde_json` for the payloads this crate handles. -/
def parseValue : Nat → List Char → Option (Json × List Char)
  | 0, _ => none
  | fuel + 1, input =>
    match skipWs input with
    | [] => none
    | c :: cs =>
      if c = '"' then
        match parseStringChars cs with
        | some (s, r) => some (.str s, r)
        | none => none
      else if c = lbrace then
        parseMembers fuel cs true
      else if c = '[' then
        parseElements fuel cs true
      else if c = '-' then
        match parseDigits 0 0 cs with
        | (n, count, r) => if count = 0 then none else some (.num (-(n : Int)), r)
      else if c.isDigit then
        match parseDigits 0 0 (c :: cs) with
        | (n, _, r) => some (.num (n : Int), r)
      else
        match c :: cs with
        | 'n' :: 'u' :: 'l' :: 'l' :: r => some (.null, r)
        | 't' :: 'r' :: 'u' :: 'e' :: r => some (.bool true, r)
        | 'f' :: 'a' :: 'l' :: 's' :: 'e' :: r => some (.bool false, r)
        | _ => none

/-- Parse the members of a JSON object after the opening brace.  `first` is
true when no member has been consumed yet (so a closing brace is allowed). -/
def parseMembers : Nat → List Char → Bool → Option (Json × List Char)
  | 0, _, _ => none
  | fuel + 1, input, first =>
    match skipWs input with
    | [] => none
    | c :: cs =>
      if c = rbrace && first then some (.obj [], cs)
      else if c = '"' then
        match parseStringChars cs with
        | none => none
        | some (key, r1) =>
          match skipWs r1 with
          | ':' :: r2 =>
            match parseValue fuel r2 with
            | none => none
            | some (v, r3) =>
              match skipWs r3 with
              | ',' :: r4 =>
                match parseMembers fuel r4 false with
                | some (.obj fields, r5) => some (.obj ((key, v) :: fields), r5)
                | _ => none
              | d :: r4 =>
                if d = rbrace then some (.obj [(key, v)], r4) else none
              | [] => none
          | _ => none
      else none

/-- Parse the elements of a JSON array after the opening bracket. -/
def parseElements : Nat → List Char → Bool → Option (Json × List Char)
  | 0, _, _ => none
  | fuel + 1, input, first =>
    match skipWs input with
    | [] => none
    | c :: cs =>
      if c = ']' && first then some (.arr [], cs)
      else
        match parseValue fuel (c :: cs) with
        | none => none
        | some (v, r1) =>
          match skipWs r1 with
          | ',' :: r2 =>
            match parseElements fuel r2 false with
            | some (.arr xs, r3) => some (.arr (v :: xs), r3)
            | _ => none
          | d :: r2 => if d = ']' then some (.arr [v], r2) else none
          | [] => none

end

/-- Model of `serde_json::from_str::<Value>`: parse a complete JSON value,
requiring that only whitespace remains afterwards.  Returns `none` where
`serde_json` would return a deserialization error. -/
def parseJson (s : String) : Option Json :=
  let cs := s.toList
  match parseValue (cs.length * 2 + 4) cs with
  | some (j, rest) => if (skipWs rest).isEmpty then some j else none
  | none => none

/-- Escape a string for JSON rendering. -/
def jsonEscape (s : String) : String :=
  s.toList.foldl
    (fun acc c =>
      if c = '"' then acc ++ "\\\""
      else if c = '\\' then acc ++ "\\\\"
      else if c = '\n' then acc ++ "\\n"
      else if c = '\t' then acc ++ "\\t"
      else if c = '\r' then acc ++ "\\r"
      else acc ++ String.singleton c)
    ""

mutual

/-- Model of `serde_json::Value::to_string` (compact `Display` for `Value`). -/
def Json.render : Json → String
  | .null => "null"
  | .bool true => "true"
  | .bool false => "false"
  | .num n => toString n
  | .str s => "\"" ++ jsonEscape s ++ "\""
  | .arr xs => "[" ++ Json.renderList xs ++ "]"
  | .obj fields =>
    String.singleton lbrace ++ Json.renderFields fields ++ String.singleton rbrace

/-- Render a comma-separated list of JSON values. -/
def Json.renderList : List Json → String
  | [] => ""
  | [x] => Json.render x
  | x :: y :: rest => Json.render x ++ "," ++ Json.renderList (y :: rest)

/-- Render a comma-separated list of JSON object members. -/
def Json.renderFields : List (String × Json) → String
  | [] => ""
  | [(k, v)] => "\"" ++ jsonEscape k ++ "\":" ++ Json.render v
  | (k, v) :: f :: rest =>
    "\"" ++ jsonEscape k ++ "\":" ++ Json.render v ++ ","
      ++ Json.renderFields (f :: rest)

end

/-- Model of `llms::Role` (`src/llms/mod.rs`). -/
inductive Role where
  | user
  | assistant

/-- Model of `llms::Input` (`src/llms/mod.rs`). -/
inductive Input where
  | text (role : Role) (content : String)
  | toolCall (id : String) (name : String) (input : Json) (context : Option String)
  | toolCallOutput (id : String) (output : String)

/-- Model of `llms::Output` (`src/llms/mod.rs`). -/
inductive Output where
  | text (content : String)
  | toolCall (id : String) (name : String) (input : Json) (context : Option String)

/-- Model of `impl From<Output> for Input` (`src/llms/mod.rs`, lines 40-60). -/
def Output.toInput : Output → Input
  | .text content => .text .assistant content
  | .toolCall id name input context => .toolCall id name input context

/-- Model of `llms::Response` (`src/llms/mod.rs`). -/
structure Response where
  output : List Output

/-- Model of `llms::ResponseEvent` (`src/llms/mod.rs`). -/
inductive ResponseEvent where
  | textDelta (content : String)
  | completed (r : Response)

/-- Model of `llms::LlmsError` (`src/llms/error.rs`).  HTTP status codes are
modelled as naturals (200 = `StatusCode::OK`); error payload details carried by
`serde_json`/`reqwest`/`io` errors are modelled as strings. -/
inductive LlmsErrorM where
  | llmNotConfigured (name : String)
  | jsonError (msg : String)
  | response (status : Nat) (body : String)
  | reqwestError (msg : String)
  | ioError (msg : String)

/-- Model of `utils::sse::SseError` (`src/utils/sse.rs`). -/
inductive SseErr where
  | ioErr (msg : String)
  | reqwestErr (msg : String)
  | jsonErr (msg : String)

/-- Model of `impl From<SseError> for LlmsError` (`src/utils/sse.rs`,
lines 93-101). -/
def sseErrToLlms : SseErr → LlmsErrorM
  | .ioErr m => .ioError m
  | .reqwestErr m => .reqwestError m
  | .jsonErr m => .jsonError m

/-- One value yielded by the SSE transport to a decoder: either a successfully
deserialized chunk or an SSE-level error.  The end of the list models physical
stream end (the SSE reader returning `None`). -/
inductive Item (χ : Type) where
  | ok (c : χ)
  | err (e : SseErr)

/-- State of the SSE frame reader (`utils::sse::SseResponse`,
`src/utils/sse.rs`).  `rest` is the list of lines remaining on the byte stream
(each line modelled without its terminating newline); `closed` models
`self.line == None`, which the source sets only on a zero-byte read
(physical end of stream). -/
structure SseState where
  rest : List String
  closed : Bool

/-- Deserialize one `data:` payload, modelling `serde_json::from_str` with the
offending payload recorded in the error case. -/
def jsonPayload (p : String) : Except String Json :=
  match parseJson p with
  | some j => .ok j
  | none => .error p

/-- Whitespace test used by the `trim` model. -/
def isWsChar (c : Char) : Bool :=
  c = ' ' || c = '\n' || c = '\t' || c = '\r'

/-- Model of `str::trim`: drop leading and trailing whitespace. -/
def trimStr (s : String) : String :=
  ⟨((s.toList.dropWhile isWsChar).reverse.dropWhile isWsChar).reverse⟩

/-- Model of `line.strip_prefix("data:")` (`src/utils/sse.rs` line 59). -/
def stripDataTag (l : String) : Option String :=
  match l.toList with
  | 'd' :: 'a' :: 't' :: 'a' :: ':' :: rest => some ⟨rest⟩
  | _ => none

/-- The line-scanning loop of `SseResponse::next` (`src/utils/sse.rs`,
lines 40-74): skip lines without the `data:` marker; at physical end of stream
latch `closed`; on a `data:` line take the remainder, trim it, treat `[DONE]`
as end-of-stream for this call (without latching), otherwise deserialize. -/
def sseNextLoop : List String → Option (Except String Json) × SseState
  | [] => (none, ⟨[], true⟩)
  | l :: ls =>
    match stripDataTag l with
    | some tail =>
      let payload := trimStr tail
      if payload = "[DONE]" then (none, ⟨ls, false⟩)
      else (some (jsonPayload payload), ⟨ls, false⟩)
    | none => sseNextLoop ls

/-- Model of `SseResponse::next` (`src/utils/sse.rs`, lines 34-74). -/
def sseNext (s : SseState) : Option (Except String Json) × SseState :=
  if s.closed then (none, s) else sseNextLoop s.rest

/-- Model of the per-slot accumulator `ToolCallAccumulator` shared by the
Chat-Completions family (`src/xai/mod.rs` lines 304-309, identical in
`src/mistral/mod.rs` and `src/publicai/mod.rs`).  `Default` gives three empty
strings. -/
structure Chat.ToolCallAccumulator where
  id : String
  name : String
  arguments : String

/-- Model of the streaming `ToolCallFunctionDelta` of the Chat-Completions
family (`src/xai/mod.rs` lines 255-260). -/
structure Chat.ToolCallFunctionDelta where
  name : Option String
  arguments : Option String

/-- Model of the streaming `ToolCallDelta` of the Chat-Completions family
(`src/xai/mod.rs` lines 247-253). -/
structure Chat.ToolCallDelta where
  index : Nat
  id : Option String
  function : Option Chat.ToolCallFunctionDelta

/-- Model of the streaming `Delta` of the Chat-Completions family, generic in
the content payload type: `String` for xAI (`src/xai/mod.rs` lines 241-245)
and PublicAI, `DeltaContent` for Mistral (`src/mistral/mod.rs`
lines 236-240). -/
structure Chat.Delta (γ : Type) where
  content : Option γ
  toolCalls : Option (List Chat.ToolCallDelta)

/-- Model of `ChunkChoice` of the Chat-Completions family (`src/xai/mod.rs`
lines 236-239). -/
structure Chat.ChunkChoice (γ : Type) where
  delta : Chat.Delta γ

/-- Model of the streaming `Chunk` of the Chat-Completions family
(`src/xai/mod.rs` lines 231-234). -/
structure Chat.Chunk (γ : Type) where
  choices : List (Chat.ChunkChoice γ)

/-- Model of Mistral's `ThinkingBlock` (`src/mistral/mod.rs` lines 258-261). -/
structure Chat.ThinkingBlock where
  text : String

/-- Model of Mistral's `ContentBlock` (`src/mistral/mod.rs` lines 251-256). -/
inductive Chat.ContentBlock where
  | text (text : String)
  | thinking (thinking : List Chat.ThinkingBlock)

/-- Model of Mistral's `DeltaContent` (`src/mistral/mod.rs` lines 244-249). -/
inductive Chat.DeltaContent where
  | text (s : String)
  | blocks (bs : List Chat.ContentBlock)

/-- Model of `DeltaContent::into_text` (`src/mistral/mod.rs` lines 263-280):
extract the text (ignoring `thinking` blocks), returning `none` when empty. -/
def Chat.DeltaContent.intoText : Chat.DeltaContent → Option String
  | .text s => if s.isEmpty then none else some s
  | .blocks bs =>
    let t := bs.foldl
      (fun acc b => acc ++ match b with | .text t => t | .thinking _ => "") ""
    if t.isEmpty then none else some t

/-- The content extraction used by xAI and PublicAI:
`choice.delta.content.filter(|t| !t.is_empty())` (`src/xai/mod.rs` line 423,
`src/publicai/mod.rs` line 414). -/
def xaiContentText (s : String) : Option String :=
  if s.isEmpty then none else some s

/-- Model of `Vec::resize_with(n, Default::default)`: the resulting length is
exactly `n` — longer vectors are truncated, shorter ones are extended with the
default element. -/
def resizeWith (l : List Chat.ToolCallAccumulator) (n : Nat) :
    List Chat.ToolCallAccumulator :=
  if n ≤ l.length then l.take n
  else l ++ List.replicate (n - l.length) ⟨"", "", ""⟩

/-- Model of the body of the per-delta loop in the Chat-Completions decoders
(`src/xai/mod.rs` lines 400-420): grow the slot array to `index + 1`, then
overwrite `id`/`name` when present and append `arguments`. -/
def Chat.applyToolCallDelta (tcs : List Chat.ToolCallAccumulator)
    (d : Chat.ToolCallDelta) : List Chat.ToolCallAccumulator :=
  let tcs2 := resizeWith tcs (d.index + 1)
  let acc0 := tcs2.getD d.index ⟨"", "", ""⟩
  let acc1 := match d.id with
    | some i => { acc0 with id := i }
    | none => acc0
  let acc2 := match d.function with
    | some f =>
      let a := match f.name with
        | some n => { acc1 with name := n }
        | none => acc1
      match f.arguments with
      | some args => { a with arguments := a.arguments ++ args }
      | none => a
    | none => acc1
  tcs2.set d.index acc2

/-- Model of the decoder state `ResponseStream` of the Chat-Completions family
(`src/xai/mod.rs` lines 311-320). -/
structure Chat.State where
  text : Option String
  toolCalls : List Chat.ToolCallAccumulator
  done : Bool

/-- Processing of one deserialized chunk inside the decode loop of
`LlmResponseStream::next` for the Chat-Completions family (`src/xai/mod.rs`
lines 392-428): honour only the first choice, fold the tool-call deltas into
the slot array, then emit a `TextDelta` when the chunk carries non-empty
content. -/
def Chat.processChunk {γ : Type} (tt : γ → Option String) (s : Chat.State)
    (c : Chat.Chunk γ) : Chat.State × Option ResponseEvent :=
  match c.choices.head? with
  | none => (s, none)
  | some choice =>
    let s1 : Chat.State :=
      match choice.delta.toolCalls with
      | some ds =>
        { s with toolCalls := ds.foldl Chat.applyToolCallDelta s.toolCalls }
      | none => s
    match choice.delta.content.bind tt with
    | some text =>
      ({ s1 with text := some (s1.text.getD "" ++ text) },
        some (.textDelta text))
    | none => (s1, none)

/-- Model of the per-provider error enums `XAiError`/`MistralError`/
`PublicAiError`, which are textually identical (`src/xai/mod.rs`
lines 262-272).  Error-detail strings carried by `serde_json`/`reqwest` are
dropped from the modelled messages. -/
inductive ChatError where
  | invalidLlmResponse (msg : String)
  | noOutput
  | responseError (status : Nat) (body : String)
  | reqwestError (msg : String)

/-- Model of `impl From<XAiError> for LlmsError` (`src/xai/mod.rs`
lines 274-291), identical for Mistral and PublicAI. -/
def chatErrToLlms : ChatError → LlmsErrorM
  | .invalidLlmResponse msg => .response 200 msg
  | .noOutput => .response 200 "no output in response"
  | .responseError status body => .response status body
  | .reqwestError msg => .reqwestError msg

/-- The tool-call finalization loop of `build_response` (`src/xai/mod.rs`
lines 348-362): each slot's accumulated argument string is parsed as JSON, a
parse failure aborting with an `InvalidLlmResponse` error naming the tool;
successes become `Output::ToolCall` values with `context: None`. -/
def Chat.toolOutputs : List Chat.ToolCallAccumulator →
    Except ChatError (List Output)
  | [] => .ok []
  | tc :: rest =>
    match parseJson tc.arguments with
    | none =>
      .error (.invalidLlmResponse
        ("invalid tool call arguments JSON for " ++ tc.name))
    | some v =>
      match Chat.toolOutputs rest with
      | .error e => .error e
      | .ok outs => .ok (Output.toolCall tc.id tc.name v none :: outs)

/-- Model of `ResponseStream::build_response` for the Chat-Completions family
(`src/xai/mod.rs` lines 340-369): accumulated text (if any) becomes one
`Output::Text`, each slot is finalized, and an entirely empty output is the
`NoOutput` error. -/
def Chat.buildResponse (s : Chat.State) : Except ChatError Response :=
  match Chat.toolOutputs s.toolCalls with
  | .error e => .error e
  | .ok tcOuts =>
    let output :=
      (match s.text with | some t => [Output.text t] | none => []) ++ tcOuts
    if output.isEmpty then .error .noOutput else .ok ⟨output⟩

/-- The single terminal value a Chat-Completions decoder emits at physical
stream end (`src/xai/mod.rs` lines 382-389). -/
def Chat.finishEvent (s : Chat.State) : Except LlmsErrorM ResponseEvent :=
  match Chat.buildResponse s with
  | .ok r => .ok (.completed r)
  | .error e => .error (chatErrToLlms e)

/-- Trace semantics of `LlmResponseStream::next` for the Chat-Completions
family (`src/xai/mod.rs` lines 372-431): the list of values the decoder
returns when `next` is called repeatedly until it yields `None`.  End of the
item list is physical stream end, at which the decoder marks itself done and
emits the built response; SSE-level errors are forwarded without stopping. -/
def Chat.run {γ : Type} (tt : γ → Option String) (s : Chat.State) :
    List (Item (Chat.Chunk γ)) → List (Except LlmsErrorM ResponseEvent)
  | [] => if s.done then [] else [Chat.finishEvent s]
  | i :: rest =>
    if s.done then []
    else
      match i with
      | .err e => .error (sseErrToLlms e) :: Chat.run tt s rest
      | .ok c =>
        match Chat.processChunk tt s c with
        | (s2, some ev) => .ok ev :: Chat.run tt s2 rest
        | (s2, none) => Chat.run tt s2 rest

/-- The fresh decoder state (`ResponseStream::new`, `src/xai/mod.rs`
lines 330-338). -/
def Chat.init : Chat.State := ⟨none, [], false⟩

/-- The xAI decoder (`src/xai/mod.rs`): the Chat-Completions decoder with
plain-string content deltas. -/
def XAi.run : Chat.State → List (Item (Chat.Chunk String)) →
    List (Except LlmsErrorM ResponseEvent) :=
  Chat.run xaiContentText

/-- The PublicAI decoder (`src/publicai/mod.rs` lines 363-422), textually
identical to the xAI decoder. -/
def PublicAi.run : Chat.State → List (Item (Chat.Chunk String)) →
    List (Except LlmsErrorM ResponseEvent) :=
  Chat.run xaiContentText

/-- The Mistral decoder (`src/mistral/mod.rs` lines 405-466): content deltas
are `DeltaContent` values reduced by `into_text`. -/
def Mistral.run : Chat.State → List (Item (Chat.Chunk Chat.DeltaContent)) →
    List (Except LlmsErrorM ResponseEvent) :=
  Chat.run Chat.DeltaContent.intoText

/-- Model of Anthropic's `MessageStartUsage` (`src/anthropic/mod.rs`
lines 273-276). -/
structure Anth.MessageStartUsage where
  inputTokens : Nat

/-- Model of Anthropic's `MessageStartData` (`src/anthropic/mod.rs`
lines 266-271). -/
structure Anth.MessageStartData where
  id : String
  model : String
  usage : Option Anth.MessageStartUsage

/-- Model of Anthropic's `ContentBlockStartData` (`src/anthropic/mod.rs`
lines 278-283). -/
inductive Anth.ContentBlockStartData where
  | text (text : String)
  | toolUse (id : String) (name : String)

/-- Model of Anthropic's `ContentDelta` (`src/anthropic/mod.rs`
lines 285-290). -/
inductive Anth.ContentDelta where
  | textDelta (text : String)
  | inputJsonDelta (partJson : String)

/-- Model of Anthropic's `MessageDeltaData` (`src/anthropic/mod.rs`
lines 292-296). -/
structure Anth.MessageDeltaData where
  stopReason : Option String
  stopSequence : Option String

/-- Model of Anthropic's `MessageDeltaUsage` (`src/anthropic/mod.rs`
lines 298-301). -/
structure Anth.MessageDeltaUsage where
  outputTokens : Nat

/-- Model of Anthropic's streaming `Event` (`src/anthropic/mod.rs`
lines 238-264). -/
inductive Anth.Event where
  | messageStart (message : Anth.MessageStartData)
  | contentBlockStart (index : Nat) (contentBlock : Anth.ContentBlockStartData)
  | contentBlockDelta (index : Nat) (delta : Anth.ContentDelta)
  | contentBlockStop (index : Nat)
  | messageDelta (delta : Anth.MessageDeltaData)
      (usage : Option Anth.MessageDeltaUsage)
  | messageStop
  | ping
  | apiError (errorType : String) (message : String)

/-- Model of `AnthropicError` (`src/anthropic/mod.rs` lines 310-320). -/
inductive AnthropicError where
  | invalidLlmResponse (msg : String)
  | responseError (status : Nat) (body : String)
  | apiError (errorType : String) (message : String)
  | reqwestError (msg : String)

/-- Model of `impl From<AnthropicError> for LlmsError` (`src/anthropic/mod.rs`
lines 322-342). -/
def anthErrToLlms : AnthropicError → LlmsErrorM
  | .invalidLlmResponse msg => .response 200 msg
  | .responseError status body => .response status body
  | .apiError errorType message => .response 200 (errorType ++ ": " ++ message)
  | .reqwestError msg => .reqwestError msg

/-- Model of the Anthropic `BlockAccumulator` (`src/anthropic/mod.rs`
lines 344-353). -/
inductive Anth.BlockAccumulator where
  | text (text : String)
  | toolUse (id : String) (name : String) (inputJson : String)

/-- Model of the Anthropic decoder state `ResponseStream`
(`src/anthropic/mod.rs` lines 355-361). -/
structure Anth.State where
  blocks : List Anth.BlockAccumulator
  done : Bool

/-- Outcome of processing one Anthropic event: a value returned to the caller,
silent state accumulation, or a process abort (Rust panic). -/
inductive Anth.Step where
  | emit (v : Except LlmsErrorM ResponseEvent)
  | silent
  | crash (msg : String)

/-- The block-finalization loop of Anthropic's `build_response`
(`src/anthropic/mod.rs` lines 390-419): empty text blocks are dropped,
non-empty text becomes `Output::Text`, tool-use blocks have their accumulated
argument buffer parsed as JSON (failure is fatal) and become
`Output::ToolCall` with `context: None`. -/
def Anth.blocksToOutputs : List Anth.BlockAccumulator →
    Except AnthropicError (List Output)
  | [] => .ok []
  | .text t :: rest =>
    if t.isEmpty then Anth.blocksToOutputs rest
    else
      match Anth.blocksToOutputs rest with
      | .error e => .error e
      | .ok outs => .ok (Output.text t :: outs)
  | .toolUse id name inputJson :: rest =>
    match parseJson inputJson with
    | none => .error (.invalidLlmResponse ("invalid tool input JSON for " ++ name))
    | some v =>
      match Anth.blocksToOutputs rest with
      | .error e => .error e
      | .ok outs => .ok (Output.toolCall id name v none :: outs)

/-- Model of Anthropic's `ResponseStream::build_response`
(`src/anthropic/mod.rs` lines 390-419).  Note there is no empty-output check:
an entirely empty block list yields a successful empty response. -/
def Anth.buildResponse (s : Anth.State) : Except AnthropicError Response :=
  match Anth.blocksToOutputs s.blocks with
  | .error e => .error e
  | .ok outs => .ok ⟨outs⟩

/-- The terminal value the Anthropic decoder emits on `message_stop`
(`src/anthropic/mod.rs` lines 481-488). -/
def Anth.finishEvent (s : Anth.State) : Except LlmsErrorM ResponseEvent :=
  match Anth.buildResponse s with
  | .ok r => .ok (.completed r)
  | .error e => .error (anthErrToLlms e)

/-- Processing of one deserialized Anthropic event inside the decode loop of
`LlmResponseStream::next` (`src/anthropic/mod.rs` lines 435-500).  The
`ContentBlockDelta` arm reproduces the source's `.expect(...)` on a
non-existent index and its `unreachable!(...)` on a delta kind that does not
match the block's accumulator type: both are modelled as `crash` because the
Rust code panics there. -/
def Anth.processEvent (s : Anth.State) : Anth.Event → Anth.Step × Anth.State
  | .contentBlockStart _ cb =>
    let b := match cb with
      | .text t => Anth.BlockAccumulator.text t
      | .toolUse id name => Anth.BlockAccumulator.toolUse id name ""
    (.silent, { s with blocks := s.blocks ++ [b] })
  | .contentBlockDelta index d =>
    (match s.blocks.get? index with
     | none => (.crash "received delta for non-existent content block", s)
     | some acc =>
       match d, acc with
       | .textDelta t, .text buf =>
         (.emit (.ok (.textDelta t)),
           { s with blocks := s.blocks.set index (.text (buf ++ t)) })
       | .inputJsonDelta pj, .toolUse id name inputJson =>
         (.silent,
           { s with blocks := s.blocks.set index (.toolUse id name (inputJson ++ pj)) })
       | _, _ => (.crash "received delta of wrong type for content block", s))
  | .messageStop => (.emit (Anth.finishEvent s), { s with done := true })
  | .apiError errorType message =>
    (.emit (.error (.response 200 (errorType ++ ": " ++ message))),
      { s with done := true })
  | _ => (.silent, s)

/-- Trace semantics of `LlmResponseStream::next` for the Anthropic decoder
(`src/anthropic/mod.rs` lines 422-503): the list of values returned across
repeated calls, paired with a flag that is true when the decoder panicked.
At physical stream end the Anthropic decoder simply yields `None` (no
finalization), so the trace just ends. -/
def Anth.run (s : Anth.State) :
    List (Item Anth.Event) → List (Except LlmsErrorM ResponseEvent) × Bool
  | [] => ([], false)
  | i :: rest =>
    if s.done then ([], false)
    else
      match i with
      | .err e =>
        let t := Anth.run s rest
        (.error (sseErrToLlms e) :: t.1, t.2)
      | .ok ev =>
        match Anth.processEvent s ev with
        | (.emit v, s2) =>
          let t := Anth.run s2 rest
          (v :: t.1, t.2)
        | (.silent, s2) => Anth.run s2 rest
        | (.crash _, _) => ([], true)

/-- The fresh Anthropic decoder state (`ResponseStream::new`,
`src/anthropic/mod.rs` lines 371-378). -/
def Anth.init : Anth.State := ⟨[], false⟩

/-- Model of Google's `ApiFunctionCall` (`src/google/mod.rs` lines 213-218). -/
structure Google.ApiFunctionCall where
  name : String
  args : Json

/-- Model of Google's wire `CandidatePart` (`src/google/mod.rs`
lines 294-308): a function call (tried first by the untagged deserializer)
with its optional thought signature, or plain text. -/
inductive Google.CandidatePart where
  | functionCall (fc : Google.ApiFunctionCall) (thoughtSignature : Option String)
  | text (text : String)

/-- Model of Google's `CandidateContent` (`src/google/mod.rs`
lines 283-286). -/
structure Google.CandidateContent where
  parts : List Google.CandidatePart

/-- Model of Google's `Candidate` (`src/google/mod.rs` lines 278-281).  Note
the struct deserializes only `content`; in particular a `finishReason` field
on the wire is ignored by serde and never reaches the decoder. -/
structure Google.Candidate where
  content : Option Google.CandidateContent

/-- Model of Google's `ApiErrorBody` (`src/google/mod.rs` lines 310-315). -/
structure Google.ApiErrorBody where
  code : Option Nat
  message : String
  status : Option String

/-- Model of Google's `StreamChunk` (`src/google/mod.rs` lines 271-276). -/
structure Google.StreamChunk where
  candidates : List Google.Candidate
  error : Option Google.ApiErrorBody

/-- Model of `GoogleError` (`src/google/mod.rs` lines 317-329). -/
inductive GoogleError where
  | invalidLlmResponse (msg : String)
  | noOutput
  | responseError (status : Nat) (body : String)
  | apiError (code : Nat) (message : String)
  | reqwestError (msg : String)

/-- Model of `StatusCode::from_u16(code).unwrap_or(INTERNAL_SERVER_ERROR)`
(`src/google/mod.rs` lines 346-347): valid status codes are 100-999. -/
def statusFromCode (code : Nat) : Nat :=
  if 100 ≤ code && code ≤ 999 then code else 500

/-- Model of `impl From<GoogleError> for LlmsError` (`src/google/mod.rs`
lines 331-353). -/
def googleErrToLlms : GoogleError → LlmsErrorM
  | .invalidLlmResponse msg => .response 200 msg
  | .noOutput => .response 200 "no output in response"
  | .responseError status body => .response status body
  | .apiError code message => .response (statusFromCode code) message
  | .reqwestError msg => .reqwestError msg

/-- Model of the Google decoder state `ResponseStream` (`src/google/mod.rs`
lines 355-362): the running text accumulator, the buffered (already complete)
tool-call outputs and the done flag. -/
structure Google.State where
  textAcc : Option String
  toolCalls : List Output
  done : Bool

/-- The body of the per-part loop of the Google decoder (`src/google/mod.rs`
lines 447-473), acting on the pair of the state and the chunk-local
`text_delta` buffer: non-empty text extends both accumulators; a function-call
part is buffered as one complete `Output::ToolCall` whose `id` is the function
name and whose `context` is the wire thought signature, unmodified. -/
def Google.applyPart (acc : Google.State × Option String)
    (p : Google.CandidatePart) : Google.State × Option String :=
  match p with
  | .text t =>
    if t.isEmpty then acc
    else
      ({ acc.1 with textAcc := some (acc.1.textAcc.getD "" ++ t) },
        some (acc.2.getD "" ++ t))
  | .functionCall fc thoughtSignature =>
    ({ acc.1 with
        toolCalls := acc.1.toolCalls
          ++ [Output.toolCall fc.name fc.name fc.args thoughtSignature] },
      acc.2)

/-- Processing of one candidate's content (`src/google/mod.rs`
lines 444-474): fold every part, starting from an empty chunk-local text
delta. -/
def Google.applyCandidate (s : Google.State) (cand : Google.Candidate) :
    Google.State × Option String :=
  match cand.content with
  | none => (s, none)
  | some content => content.parts.foldl Google.applyPart (s, none)

/-- Model of Google's `ResponseStream::build_response` (`src/google/mod.rs`
lines 392-407): accumulated text (if any) becomes one `Output::Text` followed
by the buffered tool calls; an entirely empty output is the `NoOutput`
error. -/
def Google.buildResponse (s : Google.State) : Except GoogleError Response :=
  let output :=
    (match s.textAcc with | some t => [Output.text t] | none => []) ++ s.toolCalls
  if output.isEmpty then .error .noOutput else .ok ⟨output⟩

/-- The single terminal value the Google decoder emits at physical stream end
(`src/google/mod.rs` lines 420-427). -/
def Google.finishEvent (s : Google.State) : Except LlmsErrorM ResponseEvent :=
  match Google.buildResponse s with
  | .ok r => .ok (.completed r)
  | .error e => .error (googleErrToLlms e)

/-- Trace semantics of `LlmResponseStream::next` for the Google decoder
(`src/google/mod.rs` lines 410-483): an in-band error object terminates the
stream with an error; otherwise only the first candidate of a chunk is
inspected; completion happens only at physical stream end. -/
def Google.run (s : Google.State) :
    List (Item Google.StreamChunk) → List (Except LlmsErrorM ResponseEvent)
  | [] => if s.done then [] else [Google.finishEvent s]
  | i :: rest =>
    if s.done then []
    else
      match i with
      | .err e => .error (sseErrToLlms e) :: Google.run s rest
      | .ok c =>
        match c.error with
        | some err =>
          .error (googleErrToLlms (.apiError (err.code.getD 0) err.message))
            :: Google.run { s with done := true } rest
        | none =>
          match c.candidates.head? with
          | none => Google.run s rest
          | some cand =>
            match Google.applyCandidate s cand with
            | (s2, some t) => .ok (.textDelta t) :: Google.run s2 rest
            | (s2, none) => Google.run s2 rest

/-- The fresh Google decoder state (`ResponseStream::new`,
`src/google/mod.rs` lines 372-380). -/
def Google.init : Google.State := ⟨none, [], false⟩

/-- Wire-level view of a Google candidate as sent by the API: the JSON object
may carry an explicit finish signal (`finishReason`) next to its content.
`Candidate`'s serde derive has no such field, so deserialization discards
it — `Google.decodeCandidate` below is that projection. -/
structure Google.CandidateWire where
  content : Option Google.CandidateContent
  finishReason : Option String

/-- Serde deserialization of a wire candidate into the decoder's `Candidate`
(`src/google/mod.rs` lines 278-281): unknown fields, including
`finishReason`, are dropped. -/
def Google.decodeCandidate (w : Google.CandidateWire) : Google.Candidate :=
  ⟨w.content⟩

/-- Wire-level view of a Google stream chunk. -/
structure Google.StreamChunkWire where
  candidates : List Google.CandidateWire
  error : Option Google.ApiErrorBody

/-- Serde deserialization of a wire chunk into the decoder's `StreamChunk`. -/
def Google.decodeChunk (w : Google.StreamChunkWire) : Google.StreamChunk :=
  ⟨w.candidates.map Google.decodeCandidate, w.error⟩

/-- Lift chunk deserialization over stream items. -/
def Google.decodeItem : Item Google.StreamChunkWire → Item Google.StreamChunk
  | .ok w => .ok (Google.decodeChunk w)
  | .err e => .err e

/-- The Google decoder applied to the wire-level stream: deserialization
followed by the decode loop. -/
def Google.runWire (s : Google.State) (items : List (Item Google.StreamChunkWire)) :
    List (Except LlmsErrorM ResponseEvent) :=
  Google.run s (items.map Google.decodeItem)

/-- Model of OpenAI's `OutputStatus` (`src/openai/mod.rs` lines 443-449). -/
inductive OpenAi.OutputStatus where
  | inProgress
  | completed
  | incomplete

/-- Model of OpenAI's `Role` (`src/openai/mod.rs` lines 199-205). -/
inductive OpenAi.Role where
  | developer
  | user
  | assistant

/-- Model of OpenAI's `OutputMessageContent` (`src/openai/mod.rs`
lines 435-441). -/
inductive OpenAi.OutputMessageContent where
  | outputText (text : String)
  | refusal (refusal : String)
  | reasoningText (text : String)

/-- Model of OpenAI's `OutputMessage` (`src/openai/mod.rs` lines 427-433). -/
structure OpenAi.OutputMessage where
  id : String
  status : OpenAi.OutputStatus
  role : OpenAi.Role
  content : List OpenAi.OutputMessageContent

/-- Model of OpenAI's `ReasoningSummary` (`src/openai/mod.rs`
lines 459-463). -/
inductive OpenAi.ReasoningSummary where
  | summaryText (text : String)

/-- Model of OpenAI's `ReasoningItem` (`src/openai/mod.rs` lines 451-457). -/
structure OpenAi.ReasoningItem where
  id : String
  summary : List OpenAi.ReasoningSummary
  status : Option OpenAi.OutputStatus

/-- Model of OpenAI's `FunctionCall` (`src/openai/mod.rs` lines 465-473). -/
structure OpenAi.FunctionCall where
  id : Option String
  callId : String
  name : String
  arguments : String
  status : Option OpenAi.OutputStatus

/-- Model of OpenAI's `OutputItem` (`src/openai/mod.rs` lines 369-376). -/
inductive OpenAi.OutputItem where
  | message (m : OpenAi.OutputMessage)
  | reasoning (r : OpenAi.ReasoningItem)
  | functionCall (fc : OpenAi.FunctionCall)

/-- Model of OpenAI's `ResponseStatus` (`src/openai/mod.rs` lines 358-367). -/
inductive OpenAi.ResponseStatus where
  | completed
  | failed
  | inProgress
  | cancelled
  | queued
  | incomplete

/-- Debug rendering of a `ResponseStatus`, as used in the status-rejection
error message. -/
def OpenAi.statusName : OpenAi.ResponseStatus → String
  | .completed => "Completed"
  | .failed => "Failed"
  | .inProgress => "InProgress"
  | .cancelled => "Cancelled"
  | .queued => "Queued"
  | .incomplete => "Incomplete"

/-- Model of OpenAI's `ResponseUsage` (`src/openai/mod.rs` lines 483-488). -/
structure OpenAi.ResponseUsage where
  inputTokens : Nat
  outputTokens : Nat
  totalTokens : Nat

/-- Model of OpenAI's terminal `Response` payload (named `Response` in
`src/openai/mod.rs` lines 330-335; renamed here to avoid shadowing the
unified `Response`). -/
structure OpenAi.ApiResponse where
  output : List OpenAi.OutputItem
  status : OpenAi.ResponseStatus
  usage : Option OpenAi.ResponseUsage

/-- Model of OpenAI's named streaming `Event` (`src/openai/mod.rs`
lines 270-328). -/
inductive OpenAi.Event where
  | responseCreated (response : OpenAi.ApiResponse)
  | responseInProgress (response : OpenAi.ApiResponse)
  | responseCompleted (response : OpenAi.ApiResponse)
  | responseOutputItemAdded (outputIndex : Nat) (item : OpenAi.OutputItem)
  | responseOutputItemDone (outputIndex : Nat) (item : OpenAi.OutputItem)
  | responseContentPartAdded (outputIndex : Nat) (itemId : String)
      (contentIndex : Nat) (part : OpenAi.OutputMessageContent)
  | responseContentPartDone (outputIndex : Nat) (itemId : String)
      (contentIndex : Nat) (part : OpenAi.OutputMessageContent)
  | responseOutputTextDelta (outputIndex : Nat) (itemId : String)
      (contentIndex : Nat) (delta : String)
  | responseOutputTextDone (outputIndex : Nat) (itemId : String)
      (contentIndex : Nat) (text : String)
  | responseFunctionCallArgumentsDelta (outputIndex : Nat) (itemId : String)
      (delta : String)
  | responseFunctionCallArgumentsDone (outputIndex : Nat) (itemId : String)
      (arguments : String)
  | responseError (code : Option String) (message : String)

/-- Model of `OpenAiError` (`src/openai/mod.rs` lines 216-224). -/
inductive OpenAiError where
  | invalidLlmResponse (msg : String)
  | responseError (status : Nat) (body : String)
  | reqwestError (msg : String)

/-- Model of `impl From<OpenAiError> for LlmsError` (`src/openai/mod.rs`
lines 226-239). -/
def openaiErrToLlms : OpenAiError → LlmsErrorM
  | .invalidLlmResponse msg => .response 200 msg
  | .responseError status body => .response status body
  | .reqwestError msg => .reqwestError msg

/-- Result of a computation that may abort the process: models that the Rust
code reaches an `assert!`/`unreachable!` panic. -/
inductive PRes (α : Type) where
  | ok (a : α)
  | crash (msg : String)

/-- Concatenation of a message's output/refusal text sub-parts
(`src/openai/mod.rs` lines 390-404): `reasoning_text` parts are skipped. -/
def OpenAi.messageText (cs : List OpenAi.OutputMessageContent) : String :=
  cs.foldl
    (fun acc c =>
      acc ++ match c with
        | .outputText t => t
        | .refusal r => r
        | .reasoningText _ => "")
    ""

/-- Model of `TryFrom<OutputItem> for Option<llms::Output>`
(`src/openai/mod.rs` lines 378-424).  The source `assert!`s that message and
function-call statuses are `Completed` — modelled as `crash` since those are
process panics. -/
def OpenAi.itemToOutput : OpenAi.OutputItem →
    PRes (Except OpenAiError (Option Output))
  | .message m =>
    (match m.status with
     | .completed => .ok (.ok (some (.text (OpenAi.messageText m.content))))
     | _ => .crash "assertion failed: message status not completed")
  | .reasoning _ => .ok (.ok none)
  | .functionCall fc =>
    (match fc.status with
     | some .completed =>
       match parseJson fc.arguments with
       | none =>
         .ok (.error (.invalidLlmResponse "failed to parse function call arguments"))
       | some v => .ok (.ok (some (.toolCall fc.callId fc.name v none)))
     | _ => .crash "assertion failed: function call status not completed")

/-- The item-conversion fold of `TryFrom<Response> for llms::Response`
(`src/openai/mod.rs` lines 348-355): items convert in order, dropped items
(`reasoning`) contribute nothing, the first error short-circuits. -/
def OpenAi.itemsToOutputs : List OpenAi.OutputItem →
    PRes (Except OpenAiError (List Output))
  | [] => .ok (.ok [])
  | i :: rest =>
    match OpenAi.itemToOutput i with
    | .crash m => .crash m
    | .ok (.error e) => .ok (.error e)
    | .ok (.ok none) => OpenAi.itemsToOutputs rest
    | .ok (.ok (some o)) =>
      match OpenAi.itemsToOutputs rest with
      | .crash m => .crash m
      | .ok (.error e) => .ok (.error e)
      | .ok (.ok outs) => .ok (.ok (o :: outs))

/-- Model of `TryFrom<Response> for llms::Response` (`src/openai/mod.rs`
lines 337-356): reject (fatally, as an error value) a payload whose top-level
status is not `completed`, otherwise convert every output item. -/
def OpenAi.tryFromResponse (r : OpenAi.ApiResponse) :
    PRes (Except OpenAiError Response) :=
  match r.status with
  | .completed =>
    (match OpenAi.itemsToOutputs r.output with
     | .crash m => .crash m
     | .ok (.error e) => .ok (.error e)
     | .ok (.ok outs) => .ok (.ok ⟨outs⟩))
  | st =>
    .ok (.error (.invalidLlmResponse
      ("response status is not completed: " ++ OpenAi.statusName st)))

/-- The value the OpenAI decoder returns for one `response.completed` event
(`src/openai/mod.rs` lines 524-527). -/
def OpenAi.completedResult (r : OpenAi.ApiResponse) :
    PRes (Except LlmsErrorM ResponseEvent) :=
  match OpenAi.tryFromResponse r with
  | .crash m => .crash m
  | .ok (.error e) => .ok (.error (openaiErrToLlms e))
  | .ok (.ok resp) => .ok (.ok (.completed resp))

/-- Debug rendering of the optional error code in the in-band error arm
(`format!("{code:?}: {message}")`, `src/openai/mod.rs` line 531). -/
def OpenAi.codeDebug : Option String → String
  | some c => "Some(\"" ++ c ++ "\")"
  | none => "None"

/-- Trace semantics of `LlmResponseStream::next` for the OpenAI decoder
(`src/openai/mod.rs` lines 511-538), paired with a panic flag.  Note the
decoder keeps no state and has no done guard: every event is translated
independently, and the loop only ends at physical stream end. -/
def OpenAi.run :
    List (Item OpenAi.Event) → List (Except LlmsErrorM ResponseEvent) × Bool
  | [] => ([], false)
  | i :: rest =>
    match i with
    | .err e =>
      let t := OpenAi.run rest
      (.error (sseErrToLlms e) :: t.1, t.2)
    | .ok ev =>
      match ev with
      | .responseOutputTextDelta _ _ _ d =>
        let t := OpenAi.run rest
        (.ok (.textDelta d) :: t.1, t.2)
      | .responseCompleted r =>
        (match OpenAi.completedResult r with
         | .crash _ => ([], true)
         | .ok v =>
           let t := OpenAi.run rest
           (v :: t.1, t.2))
      | .responseError code message =>
        let t := OpenAi.run rest
        (.error (.response 200 (OpenAi.codeDebug code ++ ": " ++ message)) :: t.1,
          t.2)
      | _ => OpenAi.run rest

/-- Model of `llms::Model` (`src/llms/mod.rs` lines 68-90). -/
inductive Model where
  | gpt5
  | gpt5Mini
  | gpt5Nano
  | gpt5_2
  | claudeOpus4_6
  | claudeSonnet4_6
  | claudeHaiku4_5
  | geminiPro3
  | geminiFlash3
  | grok4_1Fast
  | grok4_1FastNonReasoning
  | grokCodeFast1
  | mistralLarge3
  | mistralMedium3_1
  | mistralSmall3_2
  | devstral2
  | magistralMedium1_2
  | apertus8bInstruct

/-- Model of `llms::Tool` (`src/llms/mod.rs` lines 92-108). -/
structure Tool where
  name : String
  description : String
  parameters : Option Json

/-- Model of `llms::Request` (`src/llms/mod.rs` lines 9-16). -/
structure LlmsRequest where
  input : List Input
  instructions : String
  model : Model
  userId : String
  tools : List Tool

/-- Modelled from the spec: `utils::default_parameters` lives in
`src/utils/mod.rs`, which is not among the provided sources; per the spec a
missing tool schema "defaults to an empty-object schema
`(type: object, properties: \x7b\x7d)`". -/
def defaultParameters : Json :=
  .obj [("type", .str "object"), ("properties", .obj [])]

/-- Model of `ApiToolCallFunction` of the Chat-Completions family
(`src/publicai/mod.rs` lines 188-193). -/
structure Chat.ApiToolCallFunction where
  name : String
  arguments : String

/-- Model of `ApiToolCall` of the Chat-Completions family
(`src/publicai/mod.rs` lines 180-186). -/
structure Chat.ApiToolCall where
  id : String
  kind : String
  function : Chat.ApiToolCallFunction

/-- Model of the outbound `ApiMessage` of the Chat-Completions family
(`src/publicai/mod.rs` lines 128-147). -/
inductive Chat.ApiMessage where
  | system (content : String)
  | user (content : String)
  | assistant (content : Option String) (toolCalls : Option (List Chat.ApiToolCall))
  | tool (toolCallId : String) (content : String)

/-- Model of `impl From<llms::Input> for ApiMessage`
(`src/publicai/mod.rs` lines 149-178). -/
def Chat.inputToApiMessage : Input → Chat.ApiMessage
  | .text .user content => .user content
  | .text .assistant content => .assistant (some content) none
  | .toolCall id name input _ =>
    .assistant none (some [⟨id, "function", ⟨name, input.render⟩⟩])
  | .toolCallOutput id output => .tool id output

/-- Model of `ApiToolFunction` of the Chat-Completions family
(`src/publicai/mod.rs` lines 202-209). -/
structure Chat.ApiToolFunction where
  name : String
  description : Option String
  parameters : Json

/-- Model of the outbound `ApiTool` of the Chat-Completions family
(`src/publicai/mod.rs` lines 195-200). -/
structure Chat.ApiTool where
  kind : String
  function : Chat.ApiToolFunction

/-- Model of `impl From<llms::Tool> for ApiTool` (`src/publicai/mod.rs`
lines 211-222): empty descriptions are dropped and a missing schema defaults
to the empty-object schema. -/
def Chat.toolToApiTool (t : Tool) : Chat.ApiTool :=
  ⟨"function",
    ⟨t.name,
      (if t.description.isEmpty then none else some t.description),
      t.parameters.getD defaultParameters⟩⟩

/-- Model of `ApertusModel` (`src/publicai/mod.rs` lines 115-126). -/
inductive ApertusModel where
  | apertus8bInstruct

/-- Model of `ApertusModel::as_str` (`src/publicai/mod.rs` lines 120-126). -/
def ApertusModel.asStr : ApertusModel → String
  | .apertus8bInstruct => "swiss-ai/apertus-8b-instruct"

/-- Model of `publicai::Request` (`src/publicai/mod.rs` lines 109-113). -/
structure PublicAi.Request where
  messages : List Chat.ApiMessage
  model : ApertusModel
  tools : List Chat.ApiTool

/-- The serialized request body `ApiReq` the provider would POST
(`src/publicai/mod.rs` lines 40-54). -/
structure PublicAi.ApiReq where
  model : String
  messages : List Chat.ApiMessage
  tools : List Chat.ApiTool
  stream : Bool

/-- Model of `PublicAi::request` (`src/publicai/mod.rs` lines 30-74) up to the
network boundary: when the tools list is non-empty the function returns the
`InvalidLlmResponse` error before building or sending any HTTP request;
otherwise the result carries the request body that would be POSTed (the
subsequent HTTP send and response handling are outside this pure model). -/
def PublicAi.request (req : PublicAi.Request) :
    Except ChatError PublicAi.ApiReq :=
  if req.tools.isEmpty then
    .ok ⟨req.model.asStr, req.messages, req.tools, true⟩
  else
    .error (.invalidLlmResponse "tools are not supported by the PublicAI API")

/-- Model of `impl LlmProvider for PublicAi`, fn `request`
(`src/publicai/mod.rs` lines 77-107): the model is matched (any model other
than `Apertus8bInstruct` hits `unreachable!`, modelled as `crash`), non-empty
instructions become a leading system message, inputs and tools are converted,
and the inner `PublicAi::request` is called with its error converted into
`LlmsError`. -/
def PublicAi.providerRequest (req : LlmsRequest) :
    PRes (Except LlmsErrorM PublicAi.ApiReq) :=
  match req.model with
  | .apertus8bInstruct =>
    let messages :=
      (if req.instructions.isEmpty then [] else [Chat.ApiMessage.system req.instructions])
        ++ req.input.map Chat.inputToApiMessage
    (match PublicAi.request ⟨messages, .apertus8bInstruct, req.tools.map Chat.toolToApiTool⟩ with
     | .ok call => .ok (.ok call)
     | .error e => .ok (.error (chatErrToLlms e)))
  | _ => .crash "unsupported model"

/-- Test for a Completed event among a decoder's returned values. -/
def isCompletedEv : Except LlmsErrorM ResponseEvent → Bool
  | .ok (.completed _) => true
  | _ => false

/-- The responses carried by the Completed events of a trace. -/
def completedResponses (l : List (Except LlmsErrorM ResponseEvent)) :
    List Response :=
  l.filterMap fun e =>
    match e with
    | .ok (.completed r) => some r
    | _ => none

/-- The number of Completed events in a trace. -/
def countCompleted (l : List (Except LlmsErrorM ResponseEvent)) : Nat :=
  (l.filter isCompletedEv).length

/-- True when no element other than (possibly) the last one is a Completed
event. -/
def noEarlyCompleted : List (Except LlmsErrorM ResponseEvent) → Bool
  | [] => true
  | [_] => true
  | x :: y :: rest => !isCompletedEv x && noEarlyCompleted (y :: rest)

/-- True when a `ToolCall` output carries no context (text outputs trivially
qualify). -/
def outputContextNone : Output → Bool
  | .text _ => true
  | .toolCall _ _ _ context => context.isNone

/-- True when a `ToolCall` output has its id equal to its function name (text
outputs trivially qualify). -/
def outputIdEqName : Output → Bool
  | .text _ => true
  | .toolCall id name _ _ => id == name

lemma noEarly_cons (x : Except LlmsErrorM ResponseEvent) (l) (hx : isCompletedEv x = false)
    (hl : noEarlyCompleted l = true) : noEarlyCompleted (x :: l) = true := by
  cases l with
  | nil => rfl
  | cons y rest => simp [noEarlyCompleted, hx, hl]

lemma count_le_one_of_noEarly :
    ∀ l, noEarlyCompleted l = true → countCompleted l ≤ 1 := by
  intro l
  induction l with
  | nil => intro _; simp [countCompleted]
  | cons x xs ih =>
    intro h
    cases xs with
    | nil =>
      cases hx : isCompletedEv x <;> simp [countCompleted, hx]
    | cons y rest =>
      rw [noEarlyCompleted] at h
      simp only [Bool.and_eq_true, Bool.not_eq_true'] at h
      have := ih h.2
      simpa [countCompleted, h.1] using this

lemma Chat.processChunk_spec {γ : Type} (tt : γ → Option String) (s : Chat.State)
    (c : Chat.Chunk γ) :
    (Chat.processChunk tt s c).1.done = s.done ∧
      ((Chat.processChunk tt s c).2 = none ∨
        ∃ t, (Chat.processChunk tt s c).2 = some (.textDelta t)) := by
  unfold Chat.processChunk
  cases h1 : c.choices.head? with
  | none => simp
  | some choice =>
    cases h2 : choice.delta.toolCalls <;>
      cases h3 : choice.delta.content.bind tt <;>
        simp [h2, h3]

lemma chatRun_done {γ : Type} (tt : γ → Option String) (text tcs) :
    ∀ items, Chat.run tt ⟨text, tcs, true⟩ items = [] := by
  intro items
  cases items <;> simp [Chat.run]

lemma chatRun_noEarly {γ : Type} (tt : γ → Option String) :
    ∀ (items : List (Item (Chat.Chunk γ))) (s : Chat.State),
      noEarlyCompleted (Chat.run tt s items) = true := by
  intro items
  induction items with
  | nil =>
    intro s
    cases h : s.done <;> simp [Chat.run, h, noEarlyCompleted]
  | cons i rest ih =>
    intro s
    cases hd : s.done with
    | true => simp [Chat.run, hd, noEarlyCompleted]
    | false =>
      cases i with
      | err e =>
        simp only [Chat.run, hd, Bool.false_eq_true, if_false]
        exact noEarly_cons _ _ rfl (ih s)
      | ok c =>
        have hspec := Chat.processChunk_spec tt s c
        rcases hpc : Chat.processChunk tt s c with ⟨s2, ev⟩
        rw [hpc] at hspec
        simp only [Chat.run, hd, Bool.false_eq_true, if_false, hpc]
        rcases hspec.2 with h2 | ⟨t, h2⟩ <;> simp only at h2 <;> subst h2
        · exact ih s2
        · exact noEarly_cons _ _ rfl (ih s2)

lemma Google.applyPart_done (acc : Google.State × Option String)
    (p : Google.CandidatePart) :
    (Google.applyPart acc p).1.done = acc.1.done := by
  cases p with
  | text t => by_cases h : t.isEmpty <;> simp [Google.applyPart, h]
  | functionCall fc ts => simp [Google.applyPart]

lemma Google.foldl_applyPart_done :
    ∀ (parts : List Google.CandidatePart) (acc : Google.State × Option String),
      (parts.foldl Google.applyPart acc).1.done = acc.1.done := by
  intro parts
  induction parts with
  | nil => intro acc; rfl
  | cons p rest ih =>
    intro acc
    rw [List.foldl_cons, ih, Google.applyPart_done]

lemma Google.applyCandidate_done (s : Google.State) (cand : Google.Candidate) :
    (Google.applyCandidate s cand).1.done = s.done := by
  unfold Google.applyCandidate
  cases cand.content with
  | none => rfl
  | some content => simp [Google.foldl_applyPart_done]

lemma googleRun_done (textAcc tcs) :
    ∀ items, Google.run ⟨textAcc, tcs, true⟩ items = [] := by
  intro items
  cases items <;> simp [Google.run]

lemma googleRun_noEarly :
    ∀ (items : List (Item Google.StreamChunk)) (s : Google.State),
      noEarlyCompleted (Google.run s items) = true := by
  intro items
  induction items with
  | nil =>
    intro s
    cases h : s.done <;> simp [Google.run, h, noEarlyCompleted]
  | cons i rest ih =>
    intro s
    cases hd : s.done with
    | true => simp [Google.run, hd, noEarlyCompleted]
    | false =>
      cases i with
      | err e =>
        simp only [Google.run, hd, Bool.false_eq_true, if_false]
        exact noEarly_cons _ _ rfl (ih s)
      | ok c =>
        simp only [Google.run, hd, Bool.false_eq_true, if_false]
        cases herr : c.error with
        | some err =>
          dsimp only
          have hrest : Google.run { s with done := true } rest = [] := by
            rcases s with ⟨a, b, d⟩
            exact googleRun_done a b rest
          rw [hrest]
          rfl
        | none =>
          dsimp only
          cases hcand : c.candidates.head? with
          | none => dsimp only; exact ih s
          | some cand =>
            dsimp only
            rcases hap : Google.applyCandidate s cand with ⟨s2, td⟩
            cases td with
            | none => dsimp only; exact ih s2
            | some t => dsimp only; exact noEarly_cons _ _ rfl (ih s2)

lemma Anth.processEvent_emit_cases (s : Anth.State) (ev : Anth.Event)
    (v : Except LlmsErrorM ResponseEvent) (s2 : Anth.State)
    (h : Anth.processEvent s ev = (.emit v, s2)) :
    (∃ t, v = .ok (.textDelta t)) ∨ (∃ e, v = .error e) ∨
      (v = Anth.finishEvent s ∧ s2.done = true) := by
  cases ev with
  | messageStart m => simp [Anth.processEvent] at h
  | contentBlockStart index cb => simp [Anth.processEvent] at h
  | contentBlockDelta index d =>
    rw [Anth.processEvent] at h
    cases hg : s.blocks.get? index with
    | none => rw [hg] at h; simp at h
    | some acc =>
      rw [hg] at h
      cases d <;> cases acc <;> simp at h
      · left; exact ⟨_, h.1.symm⟩
  | contentBlockStop index => simp [Anth.processEvent] at h
  | messageDelta d u => simp [Anth.processEvent] at h
  | messageStop =>
    rw [Anth.processEvent] at h
    simp at h
    right; right
    exact ⟨h.1.symm, by rw [← h.2]⟩
  | ping => simp [Anth.processEvent] at h
  | apiError et msg =>
    rw [Anth.processEvent] at h
    simp at h
    right; left
    exact ⟨_, h.1.symm⟩

lemma anthRun_done (blocks) :
    ∀ items, Anth.run ⟨blocks, true⟩ items = ([], false) := by
  intro items
  cases items <;> simp [Anth.run]

lemma anthRun_noEarly :
    ∀ (items : List (Item Anth.Event)) (s : Anth.State),
      noEarlyCompleted (Anth.run s items).1 = true := by
  intro items
  induction items with
  | nil => intro s; rfl
  | cons i rest ih =>
    intro s
    cases hd : s.done with
    | true => simp [Anth.run, hd, noEarlyCompleted]
    | false =>
      cases i with
      | err e =>
        simp only [Anth.run, hd, Bool.false_eq_true, if_false]
        exact noEarly_cons _ _ rfl (ih s)
      | ok ev =>
        simp only [Anth.run, hd, Bool.false_eq_true, if_false]
        rcases hpe : Anth.processEvent s ev with ⟨step, s2⟩
        cases step with
        | silent => exact ih s2
        | crash m => simp [noEarlyCompleted]
        | emit v =>
          rcases Anth.processEvent_emit_cases s ev v s2 hpe with ⟨t, hv⟩ | ⟨e, hv⟩ | ⟨hv, hdone⟩
          · subst hv; exact noEarly_cons _ _ rfl (ih s2)
          · subst hv; exact noEarly_cons _ _ rfl (ih s2)
          · have hrest : Anth.run s2 rest = ([], false) := by
              rcases s2 with ⟨b2, d2⟩
              cases hdone
              exact anthRun_done b2 rest
            simp only [hrest]
            simp [noEarlyCompleted]

lemma Chat.toolOutputs_ctx :
    ∀ (tcs : List Chat.ToolCallAccumulator) (outs : List Output),
      Chat.toolOutputs tcs = .ok outs → ∀ o ∈ outs, outputContextNone o = true := by
  intro tcs
  induction tcs with
  | nil =>
    intro outs h o ho
    simp [Chat.toolOutputs] at h
    subst h
    simp at ho
  | cons tc rest ih =>
    intro outs h o ho
    rw [Chat.toolOutputs] at h
    cases hp : parseJson tc.arguments with
    | none => rw [hp] at h; simp at h
    | some v =>
      rw [hp] at h
      cases hr : Chat.toolOutputs rest with
      | error e => rw [hr] at h; simp at h
      | ok outs2 =>
        rw [hr] at h
        simp at h
        subst h
        rcases List.mem_cons.mp ho with h1 | h1
        · subst h1; rfl
        · exact ih outs2 hr o h1

lemma chatBuildResponse_ctx (s : Chat.State) (r : Response)
    (h : Chat.buildResponse s = .ok r) :
    ∀ o ∈ r.output, outputContextNone o = true := by
  intro o ho
  rw [Chat.buildResponse] at h
  cases htc : Chat.toolOutputs s.toolCalls with
  | error e => rw [htc] at h; simp at h
  | ok tcOuts =>
    rw [htc] at h
    dsimp only at h
    split at h
    · simp at h
    · simp at h
      subst h
      rcases List.mem_append.mp ho with h1 | h1
      · cases hs : s.text with
        | none => rw [hs] at h1; simp at h1
        | some t =>
          rw [hs] at h1
          simp at h1
          subst h1
          rfl
      · exact Chat.toolOutputs_ctx s.toolCalls tcOuts htc o h1

lemma completedResponses_cons_skip (x : Except LlmsErrorM ResponseEvent)
    (l : List (Except LlmsErrorM ResponseEvent)) (hx : isCompletedEv x = false) :
    completedResponses (x :: l) = completedResponses l := by
  cases x with
  | error e => simp [completedResponses, List.filterMap_cons]
  | ok ev =>
    cases ev with
    | textDelta t => simp [completedResponses, List.filterMap_cons]
    | completed r => simp [isCompletedEv] at hx

lemma chatRun_ctx {γ : Type} (tt : γ → Option String) :
    ∀ (items : List (Item (Chat.Chunk γ))) (s : Chat.State) (r : Response)
      (o : Output), r ∈ completedResponses (Chat.run tt s items) →
      o ∈ r.output → outputContextNone o = true := by
  intro items
  induction items with
  | nil =>
    intro s r o hr ho
    rw [Chat.run] at hr
    by_cases hd : s.done = true
    · simp [hd, completedResponses] at hr
    · simp only [hd, if_false] at hr
      rw [Chat.finishEvent] at hr
      cases hb : Chat.buildResponse s with
      | error e => rw [hb] at hr; simp [completedResponses] at hr
      | ok r0 =>
        rw [hb] at hr
        simp [completedResponses] at hr
        subst hr
        exact chatBuildResponse_ctx s r hb o ho
  | cons i rest ih =>
    intro s r o hr ho
    cases hd : s.done with
    | true => simp [Chat.run, hd, completedResponses] at hr
    | false =>
      simp only [Chat.run, hd, Bool.false_eq_true, if_false] at hr
      cases i with
      | err e =>
        dsimp only at hr
        rw [completedResponses_cons_skip (.error (sseErrToLlms e)) _ rfl] at hr
        exact ih s r o hr ho
      | ok c =>
        dsimp only at hr
        have hspec := Chat.processChunk_spec tt s c
        rcases hpc : Chat.processChunk tt s c with ⟨s2, ev⟩
        rw [hpc] at hspec hr
        rcases hspec.2 with h2 | ⟨t, h2⟩ <;> simp only at h2 <;> subst h2 <;>
          dsimp only at hr
        · exact ih s2 r o hr ho
        · rw [completedResponses_cons_skip (.ok (.textDelta t)) _ rfl] at hr
          exact ih s2 r o hr ho

lemma Anth.blocksToOutputs_ctx :
    ∀ (blocks : List Anth.BlockAccumulator) (outs : List Output),
      Anth.blocksToOutputs blocks = .ok outs →
      ∀ o ∈ outs, outputContextNone o = true := by
  intro blocks
  induction blocks with
  | nil =>
    intro outs h o ho
    simp [Anth.blocksToOutputs] at h
    subst h
    simp at ho
  | cons b rest ih =>
    intro outs h o ho
    cases b with
    | text t =>
      rw [Anth.blocksToOutputs] at h
      by_cases ht : t.isEmpty = true
      · simp only [ht, if_true] at h
        exact ih outs h o ho
      · simp only [ht, if_false] at h
        cases hr : Anth.blocksToOutputs rest with
        | error e => rw [hr] at h; simp at h
        | ok outs2 =>
          rw [hr] at h
          simp at h
          subst h
          rcases List.mem_cons.mp ho with h1 | h1
          · subst h1; rfl
          · exact ih outs2 hr o h1
    | toolUse id name inputJson =>
      rw [Anth.blocksToOutputs] at h
      cases hp : parseJson inputJson with
      | none => rw [hp] at h; simp at h
      | some v =>
        rw [hp] at h
        cases hr : Anth.blocksToOutputs rest with
        | error e => rw [hr] at h; simp at h
        | ok outs2 =>
          rw [hr] at h
          simp at h
          subst h
          rcases List.mem_cons.mp ho with h1 | h1
          · subst h1; rfl
          · exact ih outs2 hr o h1

lemma anthBuildResponse_ctx (s : Anth.State) (r : Response)
    (h : Anth.buildResponse s = .ok r) :
    ∀ o ∈ r.output, outputContextNone o = true := by
  intro o ho
  rw [Anth.buildResponse] at h
  cases hb : Anth.blocksToOutputs s.blocks with
  | error e => rw [hb] at h; simp at h
  | ok outs =>
    rw [hb] at h
    simp at h
    subst h
    exact Anth.blocksToOutputs_ctx s.blocks outs hb o ho

lemma anthRun_ctx :
    ∀ (items : List (Item Anth.Event)) (s : Anth.State) (r : Response)
      (o : Output), r ∈ completedResponses (Anth.run s items).1 →
      o ∈ r.output → outputContextNone o = true := by
  intro items
  induction items with
  | nil =>
    intro s r o hr ho
    simp [Anth.run, completedResponses] at hr
  | cons i rest ih =>
    intro s r o hr ho
    cases hd : s.done with
    | true => simp [Anth.run, hd, completedResponses] at hr
    | false =>
      simp only [Anth.run, hd, Bool.false_eq_true, if_false] at hr
      cases i with
      | err e =>
        dsimp only at hr
        rw [completedResponses_cons_skip (.error (sseErrToLlms e)) _ rfl] at hr
        exact ih s r o hr ho
      | ok ev =>
        dsimp only at hr
        rcases hpe : Anth.processEvent s ev with ⟨step, s2⟩
        rw [hpe] at hr
        cases step with
        | silent => exact ih s2 r o hr ho
        | crash m => simp [completedResponses] at hr
        | emit v =>
          dsimp only at hr
          rcases Anth.processEvent_emit_cases s ev v s2 hpe with ⟨t, hv⟩ | ⟨e, hv⟩ | ⟨hv, hdone⟩
          · subst hv
            rw [completedResponses_cons_skip (.ok (.textDelta t)) _ rfl] at hr
            exact ih s2 r o hr ho
          · subst hv
            rw [completedResponses_cons_skip (.error e) _ rfl] at hr
            exact ih s2 r o hr ho
          · subst hv
            rw [Anth.finishEvent] at hr
            cases hb : Anth.buildResponse s with
            | error e =>
              rw [hb] at hr
              rw [completedResponses_cons_skip (.error (anthErrToLlms e)) _ rfl] at hr
              exact ih s2 r o hr ho
            | ok r0 =>
              rw [hb] at hr
              simp only [completedResponses, List.filterMap_cons] at hr
              rcases List.mem_cons.mp hr with h1 | h1
              · subst h1
                exact anthBuildResponse_ctx s r hb o ho
              · exact ih s2 r o (by simpa [completedResponses] using h1) ho

lemma Google.applyPart_idname (acc : Google.State × Option String)
    (p : Google.CandidatePart)
    (h : ∀ o ∈ acc.1.toolCalls, outputIdEqName o = true) :
    ∀ o ∈ (Google.applyPart acc p).1.toolCalls, outputIdEqName o = true := by
  intro o ho
  cases p with
  | text t =>
    cases ht : t.isEmpty with
    | true =>
      simp only [Google.applyPart, ht, if_true] at ho
      exact h o ho
    | false =>
      simp only [Google.applyPart, ht, Bool.false_eq_true, if_false] at ho
      exact h o ho
  | functionCall fc ts =>
    simp only [Google.applyPart] at ho
    rcases List.mem_append.mp ho with h1 | h1
    · exact h o h1
    · simp at h1
      subst h1
      simp [outputIdEqName]

lemma Google.foldl_applyPart_idname :
    ∀ (parts : List Google.CandidatePart) (acc : Google.State × Option String),
      (∀ o ∈ acc.1.toolCalls, outputIdEqName o = true) →
      ∀ o ∈ (parts.foldl Google.applyPart acc).1.toolCalls,
        outputIdEqName o = true := by
  intro parts
  induction parts with
  | nil => intro acc h; exact h
  | cons p rest ih =>
    intro acc h
    rw [List.foldl_cons]
    exact ih _ (Google.applyPart_idname acc p h)

lemma Google.applyCandidate_idname (s : Google.State) (cand : Google.Candidate)
    (h : ∀ o ∈ s.toolCalls, outputIdEqName o = true) :
    ∀ o ∈ (Google.applyCandidate s cand).1.toolCalls, outputIdEqName o = true := by
  unfold Google.applyCandidate
  cases cand.content with
  | none => exact h
  | some content => exact Google.foldl_applyPart_idname content.parts (s, none) h

lemma Google.buildResponse_idname (s : Google.State) (r : Response)
    (hs : ∀ o ∈ s.toolCalls, outputIdEqName o = true)
    (h : Google.buildResponse s = .ok r) :
    ∀ o ∈ r.output, outputIdEqName o = true := by
  intro o ho
  rw [Google.buildResponse] at h
  split at h
  · simp at h
  · simp at h
    subst h
    rcases List.mem_append.mp ho with h1 | h1
    · cases hx : s.textAcc with
      | none => rw [hx] at h1; simp at h1
      | some t =>
        rw [hx] at h1
        simp at h1
        subst h1
        rfl
    · exact hs o h1

lemma googleRun_idname :
    ∀ (items : List (Item Google.StreamChunk)) (s : Google.State),
      (∀ o ∈ s.toolCalls, outputIdEqName o = true) →
      ∀ r ∈ completedResponses (Google.run s items), ∀ o ∈ r.output,
        outputIdEqName o = true := by
  intro items
  induction items with
  | nil =>
    intro s hs r hr o ho
    rw [Google.run] at hr
    by_cases hd : s.done = true
    · simp [hd, completedResponses] at hr
    · simp only [hd, if_false] at hr
      rw [Google.finishEvent] at hr
      cases hb : Google.buildResponse s with
      | error e => rw [hb] at hr; simp [completedResponses] at hr
      | ok r0 =>
        rw [hb] at hr
        simp [completedResponses] at hr
        subst hr
        exact Google.buildResponse_idname s r hs hb o ho
  | cons i rest ih =>
    intro s hs r hr o ho
    cases hd : s.done with
    | true => simp [Google.run, hd, completedResponses] at hr
    | false =>
      simp only [Google.run, hd, Bool.false_eq_true, if_false] at hr
      cases i with
      | err e =>
        dsimp only at hr
        rw [completedResponses_cons_skip (.error (sseErrToLlms e)) _ rfl] at hr
        exact ih s hs r hr o ho
      | ok c =>
        dsimp only at hr
        cases herr : c.error with
        | some err =>
          rw [herr] at hr
          dsimp only at hr
          rw [completedResponses_cons_skip
            (.error (googleErrToLlms (.apiError (err.code.getD 0) err.message))) _ rfl] at hr
          have hrest : Google.run { s with done := true } rest = [] := by
            rcases s with ⟨a, b, d⟩
            exact googleRun_done a b rest
          rw [hrest] at hr
          simp [completedResponses] at hr
        | none =>
          rw [herr] at hr
          dsimp only at hr
          cases hcand : c.candidates.head? with
          | none =>
            rw [hcand] at hr
            exact ih s hs r hr o ho
          | some cand =>
            rw [hcand] at hr
            dsimp only at hr
            have hinv := Google.applyCandidate_idname s cand hs
            rcases hap : Google.applyCandidate s cand with ⟨s2, td⟩
            rw [hap] at hr hinv
            cases td with
            | none =>
              dsimp only at hr
              exact ih s2 hinv r hr o ho
            | some t =>
              dsimp only at hr
              rw [completedResponses_cons_skip (.ok (.textDelta t)) _ rfl] at hr
              exact ih s2 hinv r hr o ho

lemma anthBlocks_replicate_empty :
    ∀ n : Nat, Anth.blocksToOutputs (List.replicate n (.text "")) = .ok [] := by
  intro n
  induction n with
  | zero => rfl
  | succ n ih =>
    simp [List.replicate_succ, Anth.blocksToOutputs, ih,
      (by decide : ("" : String).isEmpty = true)]

/-- Claim C1: for the Chat-Completions family decoders (xAI, Mistral,
PublicAI), a stream delivering a tool-call delta at index 0 carrying id "abc"
and function name "lookup", then two argument-fragment deltas, then stream
end, yields exactly one event: `Completed` whose output is the single
`ToolCall` with id "abc", name "lookup" and the concatenated argument string
parsed as JSON. -/
theorem c1_chat_completions_tool_call_scenario :
    XAi.run Chat.init
      [.ok ⟨[⟨⟨none, some [⟨0, some "abc", some ⟨some "lookup", none⟩⟩]⟩⟩]⟩,
       .ok ⟨[⟨⟨none, some [⟨0, none, some ⟨none, some "\x7b\"q\":"⟩⟩]⟩⟩]⟩,
       .ok ⟨[⟨⟨none, some [⟨0, none, some ⟨none, some "\"paris\"\x7d"⟩⟩]⟩⟩]⟩]
      = [.ok (.completed ⟨[.toolCall "abc" "lookup" (.obj [("q", .str "paris")]) none]⟩)]
    ∧ Mistral.run Chat.init
      [.ok ⟨[⟨⟨none, some [⟨0, some "abc", some ⟨some "lookup", none⟩⟩]⟩⟩]⟩,
       .ok ⟨[⟨⟨none, some [⟨0, none, some ⟨none, some "\x7b\"q\":"⟩⟩]⟩⟩]⟩,
       .ok ⟨[⟨⟨none, some [⟨0, none, some ⟨none, some "\"paris\"\x7d"⟩⟩]⟩⟩]⟩]
      = [.ok (.completed ⟨[.toolCall "abc" "lookup" (.obj [("q", .str "paris")]) none]⟩)]
    ∧ PublicAi.run Chat.init
      [.ok ⟨[⟨⟨none, some [⟨0, some "abc", some ⟨some "lookup", none⟩⟩]⟩⟩]⟩,
       .ok ⟨[⟨⟨none, some [⟨0, none, some ⟨none, some "\x7b\"q\":"⟩⟩]⟩⟩]⟩,
       .ok ⟨[⟨⟨none, some [⟨0, none, some ⟨none, some "\"paris\"\x7d"⟩⟩]⟩⟩]⟩]
      = [.ok (.completed ⟨[.toolCall "abc" "lookup" (.obj [("q", .str "paris")]) none]⟩)] := by
  refine ⟨?_, ?_, ?_⟩ <;> rfl

/-- Claim C2, counterexample: the OpenAI decoder has no done guard, so a
stream carrying two `response.completed` wire events yields two `Completed`
events — refuting "the normalized event sequence contains at most one
Completed event" for every provider decoder. -/
theorem c2_openai_double_completed_counterexample :
    OpenAi.run [.ok (.responseCompleted ⟨[], .completed, none⟩),
                .ok (.responseCompleted ⟨[], .completed, none⟩)]
      = ([.ok (.completed ⟨[]⟩), .ok (.completed ⟨[]⟩)], false)
    ∧ countCompleted [.ok (.completed ⟨[]⟩), .ok (.completed ⟨[]⟩)] = 2 := by
  exact ⟨rfl, rfl⟩

/-- Claim C2, amended: for the xAI/Mistral/PublicAI (Chat-Completions),
Anthropic and Google decoders, a trace never contains a Completed event
before its last element (hence at most one Completed, always last), and a
decoder whose done flag is set emits nothing further.  The OpenAI decoder
instead forwards every `response.completed` wire event as its own value, so
several Completed events are possible there. -/
theorem c2_completed_terminality_amended :
    (∀ (γ : Type) (tt : γ → Option String) (s : Chat.State)
        (items : List (Item (Chat.Chunk γ))),
      noEarlyCompleted (Chat.run tt s items) = true
        ∧ countCompleted (Chat.run tt s items) ≤ 1)
    ∧ (∀ (γ : Type) (tt : γ → Option String) (text : Option String)
        (tcs : List Chat.ToolCallAccumulator) (items : List (Item (Chat.Chunk γ))),
      Chat.run tt ⟨text, tcs, true⟩ items = [])
    ∧ (∀ (s : Anth.State) (items : List (Item Anth.Event)),
      noEarlyCompleted (Anth.run s items).1 = true
        ∧ countCompleted (Anth.run s items).1 ≤ 1)
    ∧ (∀ (blocks : List Anth.BlockAccumulator) (items : List (Item Anth.Event)),
      Anth.run ⟨blocks, true⟩ items = ([], false))
    ∧ (∀ (s : Google.State) (items : List (Item Google.StreamChunk)),
      noEarlyCompleted (Google.run s items) = true
        ∧ countCompleted (Google.run s items) ≤ 1)
    ∧ (∀ (textAcc : Option String) (tcs : List Output)
        (items : List (Item Google.StreamChunk)),
      Google.run ⟨textAcc, tcs, true⟩ items = [])
    ∧ (∀ (r : OpenAi.ApiResponse) (rest : List (Item OpenAi.Event)),
      OpenAi.run (.ok (.responseCompleted r) :: rest) =
        match OpenAi.completedResult r with
        | .crash _ => ([], true)
        | .ok v => (v :: (OpenAi.run rest).1, (OpenAi.run rest).2)) := by
  refine ⟨?_, ?_, ?_, ?_, ?_, ?_, ?_⟩
  · intro γ tt s items
    exact ⟨chatRun_noEarly tt items s,
      count_le_one_of_noEarly _ (chatRun_noEarly tt items s)⟩
  · intro γ tt text tcs items
    exact chatRun_done tt text tcs items
  · intro s items
    exact ⟨anthRun_noEarly items s,
      count_le_one_of_noEarly _ (anthRun_noEarly items s)⟩
  · intro blocks items
    exact anthRun_done blocks items
  · intro s items
    exact ⟨googleRun_noEarly items s,
      count_le_one_of_noEarly _ (googleRun_noEarly items s)⟩
  · intro textAcc tcs items
    exact googleRun_done textAcc tcs items
  · intro r rest
    rfl

/-- Claim C3: a `ContentBlockDelta` whose index refers to no existing block
accumulator, or whose delta kind does not match the accumulator type, makes
the Anthropic decoder panic (`expect` / `unreachable!`) instead of surfacing
an error value: both runs abort (flag `true`) having emitted nothing.  The
spec requires a fatal protocol-violation error value and forbids panics
reachable from network input, so this is a bug in the code. -/
theorem c3_anthropic_delta_mismatch_panics :
    Anth.run Anth.init [.ok (.contentBlockDelta 0 (.textDelta "hi"))] = ([], true)
    ∧ Anth.run Anth.init
        [.ok (.contentBlockStart 0 (.toolUse "toolu_1" "lookup")),
         .ok (.contentBlockDelta 0 (.textDelta "x"))] = ([], true) := by
  exact ⟨rfl, rfl⟩

/-- Claim C4, counterexample: a chunk whose first candidate carries the
explicit finish signal `finishReason: "STOP"` does not complete the stream —
the text "b" of a later chunk still lands in the single Completed event
(content "ab"), whereas the claim requires the flush to happen at the finish
chunk carrying only "a". -/
theorem c4_google_finish_signal_counterexample :
    Google.runWire Google.init
      [.ok ⟨[⟨some ⟨[.text "a"]⟩, some "STOP"⟩], none⟩,
       .ok ⟨[⟨some ⟨[.text "b"]⟩, none⟩], none⟩]
      = [.ok (.textDelta "a"), .ok (.textDelta "b"),
         .ok (.completed ⟨[.text "ab"]⟩)]
    ∧ ("ab" : String) ≠ "a" := by
  exact ⟨rfl, by decide⟩

/-- Claim C4, amended: the Google decoder ignores finish signals entirely —
deserialization discards `finishReason`, so decoding is identical with or
without it — and all accumulated text plus all buffered tool calls are
flushed as one Completed event only at physical stream end. -/
theorem c4_google_finish_ignored_amended :
    (∀ (content : Option Google.CandidateContent) (finish : Option String),
      Google.decodeCandidate ⟨content, finish⟩ = Google.decodeCandidate ⟨content, none⟩)
    ∧ (∀ (textAcc : Option String) (tcs : List Output),
      Google.run ⟨textAcc, tcs, false⟩ [] = [Google.finishEvent ⟨textAcc, tcs, false⟩])
    ∧ (∀ (t : String) (tcs : List Output),
      Google.buildResponse ⟨some t, tcs, false⟩ = .ok ⟨Output.text t :: tcs⟩) := by
  refine ⟨fun _ _ => rfl, fun _ _ => rfl, fun _ _ => rfl⟩

/-- Claim C5, counterexample: the `[DONE]` sentinel is not treated
identically to physical end-of-stream: the call observing the sentinel
reports stream end, but the next call keeps reading and returns the payload
`7` instead of reporting stream end again. -/
theorem c5_sse_done_not_latched_counterexample :
    sseNext ⟨["data: [DONE]", "data: 7"], false⟩ = (none, ⟨["data: 7"], false⟩)
    ∧ sseNext ⟨["data: 7"], false⟩ = (some (.ok (.num 7)), ⟨[], false⟩)
    ∧ (some (Except.ok (Json.num 7)) : Option (Except String Json)) ≠ none := by
  exact ⟨rfl, rfl, fun h => Option.noConfusion h⟩

/-- Claim C5, amended: each call to the SSE reader skips all lines without
the `data:` marker, returns the next `data:` payload deserialized as JSON (or
a deserialization error), and signals stream end without emitting a value
when the payload is the `[DONE]` sentinel; only physical end-of-stream
latches the reader (subsequent calls keep reporting stream end), while after
`[DONE]` the next call continues reading the remaining lines. -/
theorem c5_sse_reader_amended :
    (∀ (l : String) (ls : List String), stripDataTag l = none →
      sseNextLoop (l :: ls) = sseNextLoop ls)
    ∧ (∀ (l : String) (ls : List String) (tail : String),
      stripDataTag l = some tail → trimStr tail ≠ "[DONE]" →
      sseNextLoop (l :: ls) = (some (jsonPayload (trimStr tail)), ⟨ls, false⟩))
    ∧ (∀ (l : String) (ls : List String) (tail : String),
      stripDataTag l = some tail → trimStr tail = "[DONE]" →
      sseNextLoop (l :: ls) = (none, ⟨ls, false⟩))
    ∧ sseNextLoop [] = (none, ⟨[], true⟩)
    ∧ (∀ rest : List String, sseNext ⟨rest, true⟩ = (none, ⟨rest, true⟩)) := by
  refine ⟨?_, ?_, ?_, rfl, fun rest => rfl⟩
  · intro l ls h
    simp [sseNextLoop, h]
  · intro l ls tail h hne
    simp [sseNextLoop, h, hne]
  · intro l ls tail h heq
    simp [sseNextLoop, h, heq]

/-- Witness for `c5_sse_reader_amended` at the concrete line "data: 7". -/
theorem c5_sse_reader_amended_witness :
    stripDataTag "data: 7" = some " 7"
    ∧ trimStr " 7" ≠ "[DONE]"
    ∧ sseNextLoop ["data: 7"] = (some (jsonPayload (trimStr " 7")), ⟨[], false⟩) := by
  exact ⟨rfl, by decide,
    c5_sse_reader_amended.2.1 "data: 7" [] " 7" rfl (by decide)⟩

/-- Claim C6: when a stream ends with no accumulated text and no tool call,
the Chat-Completions decoders (xAI, Mistral, PublicAI) and the Google decoder
return the "no output in response" error, while the Anthropic decoder drops
empty text blocks and finalizes an entirely empty message as a successful
Completed carrying zero outputs. -/
theorem c6_empty_output_policy :
    (∀ (γ : Type) (tt : γ → Option String),
      Chat.run tt ⟨none, [], false⟩ []
        = [.error (.response 200 "no output in response")])
    ∧ Google.run ⟨none, [], false⟩ []
        = [.error (.response 200 "no output in response")]
    ∧ (∀ (n : Nat) (d : Bool),
      Anth.buildResponse ⟨List.replicate n (.text ""), d⟩ = .ok ⟨[]⟩)
    ∧ Anth.run ⟨[.text ""], false⟩ [.ok .messageStop]
        = ([.ok (.completed ⟨[]⟩)], false) := by
  refine ⟨fun _ _ => rfl, rfl, ?_, rfl⟩
  intro n d
  simp [Anth.buildResponse, anthBlocks_replicate_empty n]

/-- Claim C7: the Output-to-Input conversion (a total function, hence
deterministic) maps `Output::Text` to an assistant-role `Input::Text` with
the same content and maps `Output::ToolCall` to `Input::ToolCall` with id,
name, input and context all unchanged. -/
theorem c7_output_to_input_conversion :
    (∀ content : String, Output.toInput (.text content) = .text .assistant content)
    ∧ (∀ (id name : String) (input : Json) (context : Option String),
      Output.toInput (.toolCall id name input context)
        = .toolCall id name input context) := by
  exact ⟨fun _ => rfl, fun _ _ _ _ => rfl⟩

/-- Claim C8: processing a Google function-call part buffers exactly one
`Output::ToolCall` whose id and name both equal the wire function name and
whose context is the wire `thoughtSignature` unmodified (`none` when the part
carried none); consequently every ToolCall inside any Completed response the
Google decoder produces has its id equal to its name. -/
theorem c8_google_tool_call_id_context :
    (∀ (s : Google.State) (td : Option String) (fc : Google.ApiFunctionCall)
        (ts : Option String),
      Google.applyPart (s, td) (.functionCall fc ts)
        = ({ s with toolCalls :=
              s.toolCalls ++ [Output.toolCall fc.name fc.name fc.args ts] }, td))
    ∧ (∀ (items : List (Item Google.StreamChunk)) (r : Response) (o : Output),
      r ∈ completedResponses (Google.run Google.init items) → o ∈ r.output →
      outputIdEqName o = true) := by
  refine ⟨fun _ _ _ _ => rfl, ?_⟩
  intro items r o hr ho
  refine googleRun_idname items Google.init ?_ r hr o ho
  intro o ho
  simp [Google.init] at ho

/-- Witness for `c8_google_tool_call_id_context` at a concrete one-chunk
stream. -/
theorem c8_google_tool_call_id_context_witness :
    (⟨[.toolCall "lookup" "lookup" Json.null (some "sig")]⟩ : Response)
        ∈ completedResponses (Google.run Google.init
            [.ok ⟨[⟨some ⟨[.functionCall ⟨"lookup", Json.null⟩ (some "sig")]⟩⟩], none⟩])
    ∧ outputIdEqName (.toolCall "lookup" "lookup" Json.null (some "sig")) = true := by
  refine ⟨List.Mem.head _, ?_⟩
  exact c8_google_tool_call_id_context.2
    [.ok ⟨[⟨some ⟨[.functionCall ⟨"lookup", Json.null⟩ (some "sig")]⟩⟩], none⟩]
    ⟨[.toolCall "lookup" "lookup" Json.null (some "sig")]⟩
    (.toolCall "lookup" "lookup" Json.null (some "sig"))
    (List.Mem.head _) (List.Mem.head _)

/-- Claim C9: `PublicAi::request` returns the "tools are not supported"
error before any HTTP request is built or sent whenever the tools list is
non-empty, and therefore a unified request for `Model::Apertus8bInstruct`
declaring at least one tool always fails with that error (as a
`Response`-kind `LlmsError`) before any network activity. -/
theorem c9_publicai_tools_rejected :
    (∀ (messages : List Chat.ApiMessage) (model : ApertusModel)
        (t0 : Chat.ApiTool) (ts : List Chat.ApiTool),
      PublicAi.request ⟨messages, model, t0 :: ts⟩
        = .error (.invalidLlmResponse "tools are not supported by the PublicAI API"))
    ∧ (∀ (input : List Input) (instructions userId : String) (t0 : Tool)
        (ts : List Tool),
      PublicAi.providerRequest ⟨input, instructions, .apertus8bInstruct, userId, t0 :: ts⟩
        = .ok (.error (.response 200 "tools are not supported by the PublicAI API"))) := by
  exact ⟨fun _ _ _ _ => rfl, fun _ _ _ _ _ => rfl⟩

/-- Claim C10: every `ToolCall` contained in a Completed response produced
by the Chat-Completions decoders (xAI, Mistral, PublicAI) or the Anthropic
decoder has `context = none`; the Google decoder, by contrast, does populate
the context field from the wire thought signature. -/
theorem c10_context_none_invariant :
    (∀ (γ : Type) (tt : γ → Option String) (s : Chat.State)
        (items : List (Item (Chat.Chunk γ))) (r : Response) (o : Output),
      r ∈ completedResponses (Chat.run tt s items) → o ∈ r.output →
      outputContextNone o = true)
    ∧ (∀ (s : Anth.State) (items : List (Item Anth.Event)) (r : Response)
        (o : Output),
      r ∈ completedResponses (Anth.run s items).1 → o ∈ r.output →
      outputContextNone o = true)
    ∧ completedResponses (Google.run Google.init
        [.ok ⟨[⟨some ⟨[.functionCall ⟨"f", .null⟩ (some "sig")]⟩⟩], none⟩])
      = [⟨[.toolCall "f" "f" .null (some "sig")]⟩] := by
  refine ⟨?_, ?_, rfl⟩
  · intro γ tt s items r o hr ho
    exact chatRun_ctx tt items s r o hr ho
  · intro s items r o hr ho
    exact anthRun_ctx items s r o hr ho

/-- Witness for `c10_context_none_invariant` at a concrete xAI stream. -/
theorem c10_context_none_invariant_witness :
    (⟨[.toolCall "abc" "lookup" (.obj [("q", .str "paris")]) none]⟩ : Response)
        ∈ completedResponses (XAi.run Chat.init
            [.ok ⟨[⟨⟨none, some [⟨0, some "abc", some ⟨some "lookup", none⟩⟩]⟩⟩]⟩,
             .ok ⟨[⟨⟨none, some [⟨0, none, some ⟨none, some "\x7b\"q\":\"paris\"\x7d"⟩⟩]⟩⟩]⟩])
    ∧ outputContextNone (.toolCall "abc" "lookup" (.obj [("q", .str "paris")]) none) = true := by
  refine ⟨List.Mem.head _, ?_⟩
  exact c10_context_none_invariant.1 String xaiContentText Chat.init
    [.ok ⟨[⟨⟨none, some [⟨0, some "abc", some ⟨some "lookup", none⟩⟩]⟩⟩]⟩,
     .ok ⟨[⟨⟨none, some [⟨0, none, some ⟨none, some "\x7b\"q\":\"paris\"\x7d"⟩⟩]⟩⟩]⟩]
    ⟨[.toolCall "abc" "lookup" (.obj [("q", .str "paris")]) none]⟩
    (.toolCall "abc" "lookup" (.obj [("q", .str "paris")]) none)
    (List.Mem.head _) (List.Mem.head _)
